import Mathlib

/-!
Verification of the EnSync Python SDK client core against its specification.

The client core (connection/session state machine, envelope encryption,
publish pipeline, subscription registry, recipient key cache) lives in
`ensync/grpc_client.py` and `ensync/websocket.py`, which are not present in
this source snapshot; only their tests and example callers are. The core is
therefore modelled from the specification (each such definition carries a
`Modelled from the spec:` doc comment) and checked for consistency with the
assertions of the tests that are present (`test_grpc_fix.py`,
`ensync/tests/grpc_publisher.py`).
-/

namespace EnSync

/-! ## CryptoEnvelope (spec 4.2) -/

/-- Modelled from the spec: the symmetric cipher of the opaque
encrypt/decrypt provider consumed by CryptoEnvelope (the provider itself is
an external collaborator; the CryptoEnvelope code in the missing
`ensync/grpc_client.py` calls it). The model satisfies the provider
contract: a ciphertext opens exactly under the key that produced it. -/
def symEnc (k p : Nat) : Nat := Nat.pair k p

/-- Modelled from the spec: symmetric decryption of the opaque provider;
returns `none` under any key other than the encrypting one. -/
def symDec (k c : Nat) : Option Nat :=
  if (Nat.unpair c).1 = k then some (Nat.unpair c).2 else none

/-- Modelled from the spec: key pairs are named by a shared identifier, so
the public key of a secret key is the identifier itself. -/
def pubKeyOf (sk : Nat) : Nat := sk

/-- Modelled from the spec: wrapping the one-time content key under one
recipient public key (one key-wrap record per recipient). -/
def wrapKey (pub k : Nat) : Nat := Nat.pair pub k

/-- Modelled from the spec: attempting to unwrap one key-wrap record with a
held secret key; succeeds exactly when the record was wrapped for the
matching public key. -/
def unwrapKey (sk w : Nat) : Option Nat :=
  if (Nat.unpair w).1 = pubKeyOf sk then some (Nat.unpair w).2 else none

/-- Modelled from the spec: the envelope produced by `encrypt` — one
ciphertext plus one key-wrap record per recipient. -/
structure Envelope where
  ciphertext : Nat
  keyWraps : List Nat
deriving Repr, DecidableEq

/-- Modelled from the spec: `CryptoEnvelope.encrypt` (missing
`ensync/grpc_client.py`). Generates one ephemeral content key (passed in as
`contentKey`, generation being an external effect), encrypts the payload
once, and wraps the content key separately for each recipient in order;
duplicate recipients get duplicate key wraps. -/
def encrypt (payload : Nat) (recipients : List Nat) (contentKey : Nat) : Envelope :=
  { ciphertext := symEnc contentKey payload
    keyWraps := recipients.map (fun pub => wrapKey pub contentKey) }

/-- Result of `decrypt`: either the recovered payload or the opaque-payload
marker (payload present but unreadable). -/
inductive DecryptResult
  | payload (p : Nat)
  | OpaqueMarker
deriving Repr, DecidableEq

/-- Modelled from the spec: `CryptoEnvelope.decrypt` (missing
`ensync/grpc_client.py`). Tries the held secret key against every key-wrap
record; if none unwraps, returns the `OpaqueMarker` rather than failing. -/
def decrypt (env : Envelope) (sk : Nat) : DecryptResult :=
  match env.keyWraps.findSome? (fun w => unwrapKey sk w) with
  | some k =>
    match symDec k env.ciphertext with
    | some p => .payload p
    | none => .OpaqueMarker
  | none => .OpaqueMarker

theorem unwrap_wrap (sk pub k : Nat) :
    unwrapKey sk (wrapKey pub k) = if pub = sk then some k else none := by
  simp [unwrapKey, wrapKey, pubKeyOf, Nat.unpair_pair]

theorem unwrap_wrap_fun (sk k : Nat) :
    (fun pub => unwrapKey sk (wrapKey pub k)) =
      (fun pub => if pub = sk then some k else none) :=
  funext fun pub => unwrap_wrap sk pub k

theorem findSome_wrap_of_mem (sk k : Nat) (R : List Nat) (h : sk ∈ R) :
    R.findSome? (fun pub => unwrapKey sk (wrapKey pub k)) = some k := by
  rw [unwrap_wrap_fun]
  induction R with
  | nil => cases h
  | cons a R ih =>
    by_cases ha : a = sk
    · simp [List.findSome?_cons, ha]
    · have h' : sk ∈ R := by
        rcases List.mem_cons.mp h with h' | h'
        · exact absurd h'.symm ha
        · exact h'
      simp only [List.findSome?_cons, if_neg ha]
      exact ih h'

theorem findSome_wrap_of_not_mem (sk k : Nat) (R : List Nat) (h : sk ∉ R) :
    R.findSome? (fun pub => unwrapKey sk (wrapKey pub k)) = none := by
  rw [unwrap_wrap_fun]
  induction R with
  | nil => rfl
  | cons a R ih =>
    have ha : ¬ a = sk := fun hc => h (hc ▸ List.mem_cons_self a R)
    have hR : sk ∉ R := fun hc => h (List.mem_cons_of_mem a hc)
    simp only [List.findSome?_cons, if_neg ha]
    exact ih hR

/-- C1: decrypting `encrypt(P, R)` with the secret key of any recipient in
the (non-empty) recipient sequence `R` returns the payload `P`, and
decrypting with a secret key of no recipient returns the `OpaqueMarker`
rather than failing. -/
theorem crypto_envelope_roundtrip (p k sk sk' : Nat) (R : List Nat)
    (hne : R ≠ []) (hin : sk ∈ R) (hout : sk' ∉ R) :
    decrypt (encrypt p R k) sk = .payload p ∧
    decrypt (encrypt p R k) sk' = .OpaqueMarker := by
  have hc : ∀ s : Nat, ((fun w => unwrapKey s w) ∘ fun pub => wrapKey pub k) =
      (fun pub => unwrapKey s (wrapKey pub k)) := fun s => rfl
  constructor
  · unfold decrypt encrypt
    rw [List.findSome?_map, hc, findSome_wrap_of_mem sk k R hin]
    simp [symDec, symEnc, Nat.unpair_pair]
  · unfold decrypt encrypt
    rw [List.findSome?_map, hc, findSome_wrap_of_not_mem sk' k R hout]

/-- C1 witness: a concrete two-recipient envelope opens for each recipient
and is opaque to an outsider. -/
theorem crypto_envelope_roundtrip_witness :
    decrypt (encrypt 42 [5, 9] 7) 9 = .payload 42 ∧
    decrypt (encrypt 42 [5, 9] 7) 3 = .OpaqueMarker :=
  crypto_envelope_roundtrip 42 7 9 3 [5, 9] (by decide) (by decide) (by decide)

/-! ## RecipientKeyCache (spec 4.5) -/

/-- Modelled from the spec: the RecipientKeyCache store, a list of
(identifier, publicKey) entries ordered most-recently-used first; the cache
component of the missing `ensync/grpc_client.py`. -/
abbrev KeyCache := List (Nat × Nat)

/-- Modelled from the spec: look up an identifier and simultaneously remove
its entry, keeping the remaining entries in recency order (helper for the
LRU `get`/`put` of RecipientKeyCache). -/
def extractEntry : KeyCache → Nat → Option Nat × KeyCache
  | [], _ => (none, [])
  | (k, v) :: rest, ident =>
    if k = ident then (some v, rest)
    else
      let r := extractEntry rest ident
      (r.1, (k, v) :: r.2)

/-- Modelled from the spec: `RecipientKeyCache.get(identifier)` — returns
the cached public key or a cache miss, refreshing the entry's recency on a
hit. Pure data-structure operation, no I/O. -/
def cacheGet (cache : KeyCache) (ident : Nat) : Option Nat × KeyCache :=
  match extractEntry cache ident with
  | (some v, l) => (some v, (ident, v) :: l)
  | (none, _) => (none, cache)

/-- Modelled from the spec: `RecipientKeyCache.put(identifier, publicKey)`
— inserts at the most-recent position and evicts the least-recently-used
entry (the last one) when at capacity `cap`. Pure data-structure
operation, no I/O. -/
def cachePut (cap : Nat) (cache : KeyCache) (ident pk : Nat) : KeyCache :=
  if cap < ((ident, pk) :: (extractEntry cache ident).2).length
  then ((ident, pk) :: (extractEntry cache ident).2).dropLast
  else (ident, pk) :: (extractEntry cache ident).2

theorem extractEntry_length_le (cache : KeyCache) (ident : Nat) :
    ((extractEntry cache ident).2).length ≤ cache.length := by
  induction cache with
  | nil => simp [extractEntry]
  | cons e rest ih =>
    obtain ⟨k, v⟩ := e
    by_cases h : k = ident
    · simp [extractEntry, h]
    · simp only [extractEntry, if_neg h, List.length_cons]
      exact Nat.succ_le_succ ih

theorem extractEntry_some_length (cache : KeyCache) (ident v : Nat)
    (h : (extractEntry cache ident).1 = some v) :
    ((extractEntry cache ident).2).length + 1 = cache.length := by
  induction cache with
  | nil => simp [extractEntry] at h
  | cons e rest ih =>
    obtain ⟨k, w⟩ := e
    by_cases hk : k = ident
    · simp [extractEntry, hk]
    · simp only [extractEntry, if_neg hk] at h ⊢
      simpa using ih h

theorem extractEntry_of_not_mem (cache : KeyCache) (ident : Nat)
    (h : ∀ e ∈ cache, e.1 ≠ ident) :
    extractEntry cache ident = (none, cache) := by
  induction cache with
  | nil => rfl
  | cons e rest ih =>
    obtain ⟨k, v⟩ := e
    have hk : k ≠ ident := h (k, v) (List.mem_cons_self _ _)
    have hrest : ∀ e ∈ rest, e.1 ≠ ident := fun e he => h e (List.mem_cons_of_mem _ he)
    simp [extractEntry, hk, ih hrest]

/-- C6: the RecipientKeyCache never exceeds its capacity — `put` and `get`
both preserve the size bound — and a `put` of a fresh identifier performed
at capacity evicts exactly the least-recently-used (last) entry. `get` and
`put` are pure functions of the cache (no I/O). -/
theorem cache_bounded_lru (cap : Nat) (cache : KeyCache) (ident pk : Nat)
    (hb : cache.length ≤ cap) :
    (cachePut cap cache ident pk).length ≤ cap ∧
    ((cacheGet cache ident).2).length ≤ cap ∧
    (cache.length = cap → 1 ≤ cap → (∀ e ∈ cache, e.1 ≠ ident) →
      cachePut cap cache ident pk = (ident, pk) :: cache.dropLast) := by
  have hle := extractEntry_length_le cache ident
  refine ⟨?_, ?_, ?_⟩
  · unfold cachePut
    split
    · simp only [List.length_dropLast, List.length_cons]
      omega
    · simp only [List.length_cons] at *
      omega
  · unfold cacheGet
    rcases hx : extractEntry cache ident with ⟨o, l⟩
    cases o with
    | none => simpa using hb
    | some v =>
      have h1 : (extractEntry cache ident).1 = some v := by rw [hx]
      have h2 := extractEntry_some_length cache ident v h1
      have h3 : (extractEntry cache ident).2 = l := by rw [hx]
      rw [h3] at h2
      simpa using by omega
  · intro hcap hpos hfresh
    have h2 : (extractEntry cache ident).2 = cache := by
      rw [extractEntry_of_not_mem cache ident hfresh]
    unfold cachePut
    rw [h2]
    have hlt : cap < ((ident, pk) :: cache).length := by
      simp only [List.length_cons]
      omega
    rw [if_pos hlt]
    rcases cache with _ | ⟨e, rest⟩
    · simp at hcap
      omega
    · simp [List.dropLast]

/-- C6 witness: a concrete capacity-2 cache at capacity evicts its last
entry on `put`, and `get`/`put` respect the bound. -/
theorem cache_bounded_lru_witness :
    (cachePut 2 [(1, 10), (2, 20)] 3 30).length ≤ 2 ∧
    ((cacheGet [(1, 10), (2, 20)] 3).2).length ≤ 2 ∧
    cachePut 2 [(1, 10), (2, 20)] 3 30 = [(3, 30), (1, 10)] := by
  have h := cache_bounded_lru 2 [(1, 10), (2, 20)] 3 30 (by decide)
  refine ⟨h.1, h.2.1, ?_⟩
  have := h.2.2 (by decide) (by decide) (by decide)
  simpa [List.dropLast] using this

/-! ## ConnectionManager (spec 4.1, 5, 7) -/

/-- The error taxonomy of spec section 7. -/
inductive Err
  | authentication
  | connection
  | encryption
  | publish
  | subscription
  | ack
deriving Repr, DecidableEq

/-- The connection state machine states of spec section 4.1. -/
inductive ConnState
  | Disconnected
  | Connecting
  | Authenticating
  | Ready
  | Reconnecting
  | Closed
deriving Repr, DecidableEq

/-- Modelled from the spec: the `Session` record of the data model (spec
section 3); the `_state` dict of the missing `ensync/grpc_client.py`
(`is_connected`, `is_authenticated`, `reconnect_attempts`,
`should_reconnect`, asserted by `test_grpc_fix.py`). -/
structure Session where
  clientId : Option Nat
  clientHash : Option Nat
  isAuthenticated : Bool
  isConnected : Bool
  reconnectAttempts : Nat
  shouldReconnect : Bool
deriving Repr, DecidableEq

/-- Modelled from the spec: the recognized client configuration options
(spec section 6); the `_config` dict of the missing
`ensync/grpc_client.py`. -/
structure Config where
  heartbeatInterval : Nat
  reconnectInterval : Nat
  maxReconnectAttempts : Nat
  recipientCacheSize : Nat
deriving Repr, DecidableEq

/-- Modelled from the spec: one client instance — it owns exactly one
`Session` (a single field), the heartbeat timer, the transport channel, and
the pending-operation bookkeeping of the ConnectionManager in the missing
`ensync/grpc_client.py`. -/
structure Client where
  config : Config
  session : Session
  connState : ConnState
  heartbeatRunning : Bool
  channelOpen : Bool
  missedHeartbeats : Nat
  pendingOps : List Nat
  failedOps : List (Nat × Err)
deriving Repr, DecidableEq

/-- Modelled from the spec: a freshly constructed, never-connected client
(the state `test_grpc_fix.py` builds with `EnSyncClient(url)` and no
`connect`). -/
def initClient (cfg : Config) : Client :=
  { config := cfg
    session :=
      { clientId := none
        clientHash := none
        isAuthenticated := false
        isConnected := false
        reconnectAttempts := 0
        shouldReconnect := false }
    connState := .Disconnected
    heartbeatRunning := false
    channelOpen := false
    missedHeartbeats := 0
    pendingOps := []
    failedOps := [] }

/-- Modelled from the spec: cancellation of every outstanding suspended
operation with a `ConnectionError` (spec section 5). -/
def failPendingOps (c : Client) : Client :=
  { c with
    pendingOps := []
    failedOps := c.failedOps ++ c.pendingOps.map (fun op => (op, Err.connection)) }

/-- Modelled from the spec: `close(should_reconnect)` of the missing
`ensync/grpc_client.py` — stops the heartbeat, closes the channel, records
the flag, cancels outstanding operations with `ConnectionError`, and
transitions to `Reconnecting` when the flag is true, `Closed` otherwise. -/
def close (c : Client) (shouldReconnect : Bool) : Client :=
  { c with
    heartbeatRunning := false
    channelOpen := false
    missedHeartbeats := 0
    pendingOps := []
    failedOps := c.failedOps ++ c.pendingOps.map (fun op => (op, Err.connection))
    session :=
      { c.session with
        shouldReconnect := shouldReconnect
        isAuthenticated := false
        isConnected := false }
    connState := if shouldReconnect then .Reconnecting else .Closed }

/-- Modelled from the spec: `close()` with the default argument
`should_reconnect = False` (the signature exercised by
`test_grpc_fix.py`). -/
def closeDefault (c : Client) : Client := close c false

/-- Modelled from the spec: the outcome the transport/broker gives one
`connect` attempt (external collaborator). -/
inductive ConnectOutcome
  | authOk (clientId clientHash : Nat)
  | authFailed
  | channelFailed
deriving Repr, DecidableEq

/-- Modelled from the spec: the client after a failed `connect` —
`Closed`/unauthenticated, heartbeat not started, channel closed, no other
`Session` field touched (spec section 7, no partial side effects). -/
def closedFailed (c : Client) : Client :=
  { c with
    connState := .Closed
    heartbeatRunning := false
    channelOpen := false
    missedHeartbeats := 0
    session := { c.session with isAuthenticated := false, isConnected := false } }

/-- Modelled from the spec: the client once `connect` succeeds — channel
open, authenticated, heartbeat started, `reconnectAttempts` reset
(spec sections 4.1 and 8 scenario A). -/
def readyClient (c : Client) (cid chash : Nat) : Client :=
  { c with
    connState := .Ready
    heartbeatRunning := true
    channelOpen := true
    missedHeartbeats := 0
    session :=
      { c.session with
        clientId := some cid
        clientHash := some chash
        isAuthenticated := true
        isConnected := true
        reconnectAttempts := 0 } }

/-- Modelled from the spec: the `connect(accessKey)` call of the missing
`ensync/grpc_client.py`. `outcomes` is the sequence of per-attempt results
the external transport would give; `retriesLeft` bounds internal retries of
transient channel failures. Authentication failures are never retried and
fail the call immediately; the third component counts attempts made. -/
def connectCall (c : Client) : List ConnectOutcome → Nat → Client × Option Err × Nat
  | [], _ => (closedFailed c, some .connection, 0)
  | .authOk cid chash :: _, _ => (readyClient c cid chash, none, 1)
  | .authFailed :: _, _ => (closedFailed c, some .authentication, 1)
  | .channelFailed :: rest, retriesLeft =>
    match retriesLeft with
    | 0 => (closedFailed c, some .connection, 1)
    | n + 1 =>
      let r := connectCall c rest n
      (r.1, r.2.1, r.2.2 + 1)

/-- Modelled from the spec: the reaction to a detected connection loss (two
missed heartbeats or a severed channel): enter `Reconnecting`, unless
`maxReconnectAttempts = 0`, which disables auto-reconnect and closes
directly, failing pending operations. -/
def onConnectionLoss (c : Client) : Client :=
  if c.config.maxReconnectAttempts = 0 then failPendingOps (closedFailed c)
  else
    { c with
      connState := .Reconnecting
      heartbeatRunning := false
      channelOpen := false
      missedHeartbeats := 0
      session :=
        { c.session with
          isAuthenticated := false
          isConnected := false
          reconnectAttempts := 0 } }

/-- Modelled from the spec: the `Reconnecting` retry loop of the missing
`ensync/grpc_client.py`. Each list element is the success of one reconnect
attempt; the loop increments `reconnectAttempts` per failure, transitions
to `Closed` and fails every pending operation with `ConnectionError` once
`maxReconnectAttempts` is reached, and on success returns to `Ready` with
`reconnectAttempts` reset to 0. Returns the final client and the number of
attempts actually made. -/
def reconnectLoop : Client → List Bool → Client × Nat
  | c, [] => (c, 0)
  | c, o :: rest =>
    if c.connState = .Reconnecting then
      if o then
        ({ c with
            connState := .Ready
            heartbeatRunning := true
            channelOpen := true
            missedHeartbeats := 0
            session :=
              { c.session with
                isAuthenticated := true
                isConnected := true
                reconnectAttempts := 0 } }, 1)
      else
        let c' :=
          { c with session :=
              { c.session with reconnectAttempts := c.session.reconnectAttempts + 1 } }
        if c.config.maxReconnectAttempts ≤ c'.session.reconnectAttempts then
          (failPendingOps (closedFailed c'), 1)
        else
          let r := reconnectLoop c' rest
          (r.1, r.2 + 1)
    else (c, 0)

/-- C4: `close(b)` stops the heartbeat, closes the channel, and sets the
Session's `shouldReconnect` flag to exactly the argument passed;
`closeDefault` is `close` with `false`; `close(false)` transitions to
`Closed` and is terminal (the reconnect loop makes no attempt from it),
while `close(true)` transitions to `Reconnecting`. -/
theorem close_sets_flag_and_state (c : Client) (b : Bool) (outs : List Bool) :
    (close c b).heartbeatRunning = false ∧
    (close c b).channelOpen = false ∧
    (close c b).session.shouldReconnect = b ∧
    closeDefault c = close c false ∧
    (close c false).connState = .Closed ∧
    (close c true).connState = .Reconnecting ∧
    reconnectLoop (close c false) outs = (close c false, 0) := by
  refine ⟨rfl, rfl, rfl, rfl, rfl, rfl, ?_⟩
  cases outs with
  | nil => rfl
  | cons o rest => simp [reconnectLoop, close]

/-- C10: `close` on a never-connected client is a total operation (it
cannot raise), may be repeated on the same instance, and each call records
the `should_reconnect` value passed to that call, `false` when defaulted —
the exact sequence asserted by `test_close_method` in
`test_grpc_fix.py`. -/
theorem close_repeatable_records_flag (cfg : Config) (b : Bool) (c : Client) :
    (closeDefault (initClient cfg)).session.shouldReconnect = false ∧
    (close (closeDefault (initClient cfg)) true).session.shouldReconnect = true ∧
    (close (close (closeDefault (initClient cfg)) true) false).session.shouldReconnect
      = false ∧
    (close c b).session.shouldReconnect = b := by
  exact ⟨rfl, rfl, rfl, rfl⟩

theorem reconnectLoop_exhaust (k : Nat) :
    ∀ (c : Client) (rest : List Bool),
      c.connState = .Reconnecting →
      c.config.maxReconnectAttempts = c.session.reconnectAttempts + k →
      1 ≤ k →
      (reconnectLoop c (List.replicate k false ++ rest)).2 = k ∧
      (reconnectLoop c (List.replicate k false ++ rest)).1.connState = .Closed ∧
      (reconnectLoop c (List.replicate k false ++ rest)).1.pendingOps = [] ∧
      (reconnectLoop c (List.replicate k false ++ rest)).1.failedOps =
        c.failedOps ++ c.pendingOps.map (fun op => (op, Err.connection)) := by
  induction k with
  | zero => intro c rest _ _ hk; cases hk
  | succ n ih =>
    intro c rest hst hmax _
    have hrep : List.replicate (n + 1) false ++ rest =
        false :: (List.replicate n false ++ rest) := by
      simp [List.replicate_succ]
    rw [hrep]
    cases n with
    | zero =>
      have hle : c.config.maxReconnectAttempts ≤ c.session.reconnectAttempts + 1 := by
        omega
      simp [reconnectLoop, hst, hle, failPendingOps, closedFailed]
    | succ m =>
      have hlt : ¬ c.config.maxReconnectAttempts ≤ c.session.reconnectAttempts + 1 := by
        omega
      have hstep : reconnectLoop c (false :: (List.replicate (m + 1) false ++ rest)) =
          ((reconnectLoop
              { c with session :=
                  { c.session with reconnectAttempts := c.session.reconnectAttempts + 1 } }
              (List.replicate (m + 1) false ++ rest)).1,
           (reconnectLoop
              { c with session :=
                  { c.session with reconnectAttempts := c.session.reconnectAttempts + 1 } }
              (List.replicate (m + 1) false ++ rest)).2 + 1) := by
        simp [reconnectLoop, hst, hlt]
      rw [hstep]
      have := ih
        { c with session :=
            { c.session with reconnectAttempts := c.session.reconnectAttempts + 1 } }
        rest hst (by simp; omega) (by omega)
      exact ⟨by rw [this.1], this.2.1, this.2.2.1, this.2.2.2⟩

/-- C3: from `Reconnecting` with the attempt counter at zero, a run of
exactly `maxReconnectAttempts` consecutive failed reconnection attempts
transitions the Session to `Closed`, fails every pending operation with
`ConnectionError`, and makes no `maxReconnectAttempts + 1`-th attempt even
when further attempt outcomes would be available. -/
theorem reconnect_bound (c : Client) (rest : List Bool)
    (hst : c.connState = .Reconnecting)
    (ha : c.session.reconnectAttempts = 0)
    (hm : 1 ≤ c.config.maxReconnectAttempts) :
    (reconnectLoop c
        (List.replicate c.config.maxReconnectAttempts false ++ rest)).2 =
      c.config.maxReconnectAttempts ∧
    (reconnectLoop c
        (List.replicate c.config.maxReconnectAttempts false ++ rest)).1.connState =
      .Closed ∧
    ∀ op ∈ c.pendingOps, (op, Err.connection) ∈
      (reconnectLoop c
        (List.replicate c.config.maxReconnectAttempts false ++ rest)).1.failedOps := by
  have h := reconnectLoop_exhaust c.config.maxReconnectAttempts c rest hst
    (by omega) hm
  refine ⟨h.1, h.2.1, ?_⟩
  intro op hop
  rw [h.2.2.2]
  exact List.mem_append_right _ (List.mem_map_of_mem _ hop)

/-- C3 witness: a client with `maxReconnectAttempts = 2` and one pending
operation, fed three available failing attempts, stops after exactly 2,
ends `Closed`, and the pending operation fails with `ConnectionError`. -/
theorem reconnect_bound_witness :
    (reconnectLoop
        { initClient ⟨15000, 3000, 2, 1000⟩ with
            connState := .Reconnecting, pendingOps := [7] }
        (List.replicate 2 false ++ [false])).2 = 2 ∧
    (reconnectLoop
        { initClient ⟨15000, 3000, 2, 1000⟩ with
            connState := .Reconnecting, pendingOps := [7] }
        (List.replicate 2 false ++ [false])).1.connState = .Closed ∧
    (7, Err.connection) ∈
      (reconnectLoop
        { initClient ⟨15000, 3000, 2, 1000⟩ with
            connState := .Reconnecting, pendingOps := [7] }
        (List.replicate 2 false ++ [false])).1.failedOps := by
  have h := reconnect_bound
    { initClient ⟨15000, 3000, 2, 1000⟩ with
        connState := .Reconnecting, pendingOps := [7] }
    [false] rfl rfl (by decide)
  exact ⟨h.1, h.2.1, h.2.2 7 (by decide)⟩

/-- C8: a `connect` whose first attempt fails authentication fails
immediately with `AuthenticationError` after exactly one attempt, no
matter how many retries are allowed; and every failed `connect` leaves the
client `Closed` and the Session unauthenticated and disconnected with the
heartbeat not started and no other Session field touched. -/
theorem connect_failures_clean (c : Client) (rest outs : List ConnectOutcome)
    (retries : Nat) (e : Err)
    (hfail : (connectCall c outs retries).2.1 = some e) :
    connectCall c (.authFailed :: rest) retries =
      (closedFailed c, some .authentication, 1) ∧
    (connectCall c outs retries).1 = closedFailed c ∧
    (connectCall c outs retries).1.connState = .Closed ∧
    (connectCall c outs retries).1.session.isAuthenticated = false ∧
    (connectCall c outs retries).1.session.isConnected = false ∧
    (connectCall c outs retries).1.heartbeatRunning = false := by
  have hclean : ∀ (l : List ConnectOutcome) (n : Nat) (e' : Err),
      (connectCall c l n).2.1 = some e' → (connectCall c l n).1 = closedFailed c := by
    intro l
    induction l with
    | nil => intro n e' _; rfl
    | cons o rest' ih =>
      intro n e' h
      cases o with
      | authOk cid chash => simp [connectCall] at h
      | authFailed => rfl
      | channelFailed =>
        cases n with
        | zero => rfl
        | succ m =>
          simp only [connectCall] at h ⊢
          exact ih m e' h
  have h1 := hclean outs retries e hfail
  refine ⟨rfl, h1, ?_, ?_, ?_, ?_⟩ <;> rw [h1] <;> rfl

/-- C8 witness: on a fresh client, `connect` meeting an authentication
failure (with more outcomes and retries available) returns after one
attempt with `AuthenticationError`, and the client is `Closed`,
unauthenticated, disconnected, heartbeat off. -/
theorem connect_failures_clean_witness :
    connectCall (initClient ⟨15000, 3000, 3, 1000⟩)
        (.authFailed :: [.authOk 1 2]) 3 =
      (closedFailed (initClient ⟨15000, 3000, 3, 1000⟩), some .authentication, 1) ∧
    (connectCall (initClient ⟨15000, 3000, 3, 1000⟩) [.authFailed, .authOk 1 2] 3).1 =
      closedFailed (initClient ⟨15000, 3000, 3, 1000⟩) ∧
    (connectCall (initClient ⟨15000, 3000, 3, 1000⟩)
        [.authFailed, .authOk 1 2] 3).1.connState = .Closed ∧
    (connectCall (initClient ⟨15000, 3000, 3, 1000⟩)
        [.authFailed, .authOk 1 2] 3).1.session.isAuthenticated = false ∧
    (connectCall (initClient ⟨15000, 3000, 3, 1000⟩)
        [.authFailed, .authOk 1 2] 3).1.session.isConnected = false ∧
    (connectCall (initClient ⟨15000, 3000, 3, 1000⟩)
        [.authFailed, .authOk 1 2] 3).1.heartbeatRunning = false :=
  connect_failures_clean (initClient ⟨15000, 3000, 3, 1000⟩)
    [.authOk 1 2] [.authFailed, .authOk 1 2] 3 .authentication rfl

/-- C9: configuring `maxReconnectAttempts = 0` disables automatic
reconnection: the connection-loss handler transitions directly to `Closed`
(never `Reconnecting`), and from that state the reconnect loop makes zero
attempts whatever outcomes would have been available — the worker
configuration of `publisher_worker` in `ensync/tests/grpc_publisher.py`. -/
theorem max_zero_disables_reconnect (c : Client) (outs : List Bool)
    (h : c.config.maxReconnectAttempts = 0) :
    (onConnectionLoss c).connState = .Closed ∧
    reconnectLoop (onConnectionLoss c) outs = (onConnectionLoss c, 0) := by
  have hc : onConnectionLoss c = failPendingOps (closedFailed c) := by
    simp [onConnectionLoss, h]
  constructor
  · rw [hc]; rfl
  · rw [hc]
    cases outs with
    | nil => rfl
    | cons o rest => simp [reconnectLoop, failPendingOps, closedFailed]

/-- C9 witness: a worker-style client (`maxReconnectAttempts = 0`) that
loses its connection closes immediately and makes no reconnection attempt
even with successful outcomes on offer. -/
theorem max_zero_disables_reconnect_witness :
    (onConnectionLoss
        { initClient ⟨15000, 3000, 0, 1000⟩ with connState := .Ready }).connState =
      .Closed ∧
    reconnectLoop
        (onConnectionLoss
          { initClient ⟨15000, 3000, 0, 1000⟩ with connState := .Ready })
        [true, true] =
      (onConnectionLoss
        { initClient ⟨15000, 3000, 0, 1000⟩ with connState := .Ready }, 0) :=
  max_zero_disables_reconnect
    { initClient ⟨15000, 3000, 0, 1000⟩ with connState := .Ready } [true, true] rfl

/-- Modelled from the spec: one heartbeat interval elapsing in `Ready`;
`ackReceived` says whether the broker acknowledged the heartbeat. Two
consecutive missed acknowledgments trigger the connection-loss path (spec
section 4.1); misses are internal and touch no Session field until then. -/
def heartbeatTick (c : Client) (ackReceived : Bool) : Client :=
  if c.connState = .Ready then
    if ackReceived then { c with missedHeartbeats := 0 }
    else if 2 ≤ c.missedHeartbeats + 1 then onConnectionLoss { c with missedHeartbeats := 0 }
    else { c with missedHeartbeats := c.missedHeartbeats + 1 }
  else c

/-- Modelled from the spec: the registration a `publish` call makes with
the ConnectionManager — a pending operation when `Ready`, an immediate
`ConnectionError` otherwise (spec section 8 scenario B); it mutates no
Session field (spec section 5). -/
def publishReq (c : Client) (opId : Nat) : Client × Option Err :=
  if c.connState = .Ready then ({ c with pendingOps := c.pendingOps ++ [opId] }, none)
  else (c, some .connection)

/-- Modelled from the spec: the registration a `subscribe` call makes with
the ConnectionManager; like `publish`, it mutates no Session field. -/
def subscribeReq (c : Client) (opId : Nat) : Client × Option Err :=
  if c.connState = .Ready then ({ c with pendingOps := c.pendingOps ++ [opId] }, none)
  else (c, some .subscription)

/-- The Session invariant of spec section 3: `isAuthenticated` implies
`isConnected`. -/
def SessionInv (c : Client) : Prop :=
  c.session.isAuthenticated = true → c.session.isConnected = true

instance (c : Client) : Decidable (SessionInv c) := by
  unfold SessionInv
  infer_instance

theorem sessionInv_closedFailed (c : Client) : SessionInv (closedFailed c) := by
  intro h
  simp [closedFailed] at h

theorem sessionInv_failPendingOps (c : Client) (h : SessionInv c) :
    SessionInv (failPendingOps c) := h

theorem sessionInv_onConnectionLoss (c : Client) : SessionInv (onConnectionLoss c) := by
  unfold onConnectionLoss
  split
  · exact sessionInv_failPendingOps _ (sessionInv_closedFailed c)
  · intro h
    simp at h

theorem sessionInv_reconnectLoop (outs : List Bool) :
    ∀ (c : Client), SessionInv c → SessionInv (reconnectLoop c outs).1 := by
  induction outs with
  | nil => intro c h; exact h
  | cons o rest ih =>
    intro c h
    unfold reconnectLoop
    split
    · split
      · intro _; rfl
      · dsimp only
        split
        · intro hx
          simp [failPendingOps, closedFailed] at hx
        · exact ih _ h
    · exact h

theorem sessionInv_connectCall (outs : List ConnectOutcome) :
    ∀ (c : Client) (retries : Nat), SessionInv (connectCall c outs retries).1 := by
  induction outs with
  | nil => intro c retries; exact sessionInv_closedFailed c
  | cons o rest ih =>
    intro c retries
    cases o with
    | authOk cid chash => intro _; rfl
    | authFailed => exact sessionInv_closedFailed c
    | channelFailed =>
      cases retries with
      | zero => exact sessionInv_closedFailed c
      | succ n => exact ih c n

/-- C5: every client owns exactly one `Session` (the single `session`
field of `Client`), the invariant `isAuthenticated → isConnected` holds of
a fresh client, and every operation of the client — `connect`, `close`,
heartbeat ticks, connection loss, the reconnect loop, `publish` and
`subscribe` registration — preserves it. -/
theorem session_invariant_preserved (c : Client) (cfg : Config) (b ackRec : Bool)
    (outs : List Bool) (outcomes : List ConnectOutcome) (retries opId : Nat)
    (h : SessionInv c) :
    SessionInv (initClient cfg) ∧
    SessionInv (connectCall c outcomes retries).1 ∧
    SessionInv (close c b) ∧
    SessionInv (onConnectionLoss c) ∧
    SessionInv (heartbeatTick c ackRec) ∧
    SessionInv (reconnectLoop c outs).1 ∧
    SessionInv (publishReq c opId).1 ∧
    SessionInv (subscribeReq c opId).1 := by
  refine ⟨?_, sessionInv_connectCall outcomes c retries, ?_, sessionInv_onConnectionLoss c,
    ?_, sessionInv_reconnectLoop outs c h, ?_, ?_⟩
  · intro hx; simp [initClient] at hx
  · intro hx; simp [close] at hx
  · unfold heartbeatTick
    split
    · split
      · exact h
      · split
        · exact sessionInv_onConnectionLoss _
        · exact h
    · exact h
  · unfold publishReq
    split
    · exact h
    · exact h
  · unfold subscribeReq
    split
    · exact h
    · exact h

/-- C5 witness: the invariant holds of a fresh client and survives a
successful connect, a heartbeat miss, and a close on that client. -/
theorem session_invariant_preserved_witness :
    SessionInv (initClient ⟨15000, 3000, 3, 1000⟩) ∧
    SessionInv (connectCall (initClient ⟨15000, 3000, 3, 1000⟩) [.authOk 1 2] 3).1 ∧
    SessionInv (close (initClient ⟨15000, 3000, 3, 1000⟩) true) ∧
    SessionInv (onConnectionLoss (initClient ⟨15000, 3000, 3, 1000⟩)) ∧
    SessionInv (heartbeatTick (initClient ⟨15000, 3000, 3, 1000⟩) false) ∧
    SessionInv (reconnectLoop (initClient ⟨15000, 3000, 3, 1000⟩) [true]).1 ∧
    SessionInv (publishReq (initClient ⟨15000, 3000, 3, 1000⟩) 5).1 ∧
    SessionInv (subscribeReq (initClient ⟨15000, 3000, 3, 1000⟩) 5).1 :=
  session_invariant_preserved (initClient ⟨15000, 3000, 3, 1000⟩)
    ⟨15000, 3000, 3, 1000⟩ true false [true] [.authOk 1 2] 3 5 (by decide)

/-! ## SubscriptionRegistry acknowledgment protocol (spec 4.4) -/

/-- The terminal resolution of a delivered event's acknowledgment
lifecycle (the `AckRecord` outcomes of spec section 3). -/
inductive AckOutcome
  | acked
  | deferred (delayMs reason : Nat)
  | discarded (reason : Nat)
deriving Repr, DecidableEq

/-- Modelled from the spec: the SubscriptionRegistry's acknowledgment
state in the missing `ensync/grpc_client.py` — delivered-but-unresolved
events as (idem, block) pairs, resolved idems with their original outcome,
and the broker-visible log of acknowledgment frames actually sent. -/
structure Registry where
  pendingIdems : List (Nat × Nat)
  resolved : List (Nat × AckOutcome)
  brokerLog : List (Nat × Nat)
deriving Repr, DecidableEq

/-- Modelled from the spec: `ack(idem, block)` of the missing
`ensync/grpc_client.py`, with the idempotent-success policy the spec
chooses (section 9): an unknown `idem` fails with `AckError`; a pending
`idem` sends one Ack frame to the broker and records the outcome; an
already-resolved `idem` returns the original outcome and sends nothing. -/
def ackCall (r : Registry) (idem block : Nat) : Except Err AckOutcome × Registry :=
  match r.resolved.find? (fun e => e.1 == idem) with
  | some e => (.ok e.2, r)
  | none =>
    if r.pendingIdems.any (fun e => e.1 == idem) then
      (.ok .acked,
       { pendingIdems := r.pendingIdems.filter (fun e => e.1 != idem)
         resolved := (idem, .acked) :: r.resolved
         brokerLog := r.brokerLog ++ [(idem, block)] })
    else (.error .ack, r)

/-- C2: acknowledgment is idempotent — if a first `ack(idem, block)` call
succeeds with outcome `o` leaving state `r'`, a second call with the same
`idem` returns the same outcome `o` and leaves the registry, including the
broker-visible frame log, completely unchanged (no duplicate side
effect). -/
theorem ack_idempotent (r r' : Registry) (idem block : Nat) (o : AckOutcome)
    (h : ackCall r idem block = (.ok o, r')) :
    ackCall r' idem block = (.ok o, r') ∧
    (ackCall r' idem block).2.brokerLog = r'.brokerLog := by
  have hsecond : ackCall r' idem block = (.ok o, r') := by
    unfold ackCall at h
    rcases hfind : r.resolved.find? (fun e => e.1 == idem) with _ | e
    · rw [hfind] at h
      by_cases hp : r.pendingIdems.any (fun e => e.1 == idem)
      · rw [if_pos hp, Prod.mk.injEq] at h
        obtain ⟨h1, h2⟩ := h
        injection h1 with h1
        subst h1
        subst h2
        unfold ackCall
        simp
      · rw [if_neg hp, Prod.mk.injEq] at h
        exact (Except.noConfusion h.1)
    · rw [hfind] at h
      have h' : ((Except.ok e.2 : Except Err AckOutcome), r) = (.ok o, r') := h
      rw [Prod.mk.injEq] at h'
      obtain ⟨h1, h2⟩ := h'
      injection h1 with h1
      subst h1
      subst h2
      unfold ackCall
      rw [hfind]
  exact ⟨hsecond, by rw [hsecond]⟩

/-- C2 witness: on a registry with one delivered event, a first `ack`
succeeds, and the second `ack` of the same `idem` returns the same outcome
with the broker log unchanged. -/
theorem ack_idempotent_witness :
    ackCall (ackCall ⟨[(4, 9)], [], []⟩ 4 9).2 4 9 =
      (.ok .acked, (ackCall ⟨[(4, 9)], [], []⟩ 4 9).2) ∧
    (ackCall (ackCall ⟨[(4, 9)], [], []⟩ 4 9).2 4 9).2.brokerLog =
      (ackCall ⟨[(4, 9)], [], []⟩ 4 9).2.brokerLog :=
  ack_idempotent ⟨[(4, 9)], [], []⟩ (ackCall ⟨[(4, 9)], [], []⟩ 4 9).2 4 9 .acked
    (by rfl)

/-! ## PublishPipeline backpressure (spec 4.3, 5) -/

/-- Modelled from the spec: the PublishPipeline's concurrency state in the
missing `ensync/grpc_client.py` — the configured in-flight bound, the
number of publishes currently outstanding at the transport, and the
callers cooperatively suspended waiting for a slot. -/
structure PipeState where
  bound : Nat
  inflight : Nat
  waiting : List Nat
deriving Repr, DecidableEq

/-- The observable pipeline events: a caller invoking `publish`, and the
broker acknowledging (or failing) one in-flight publish, which frees its
slot. -/
inductive PipeEvent
  | request (opId : Nat)
  | complete
deriving Repr, DecidableEq

/-- Modelled from the spec: one step of the PublishPipeline's
semaphore discipline. A request past the bound suspends the caller at the
end of the wait queue — it is not an error; a completion hands the freed
slot to the longest-waiting caller, or lowers the in-flight count. -/
def pipeStep (s : PipeState) : PipeEvent → PipeState
  | .request opId =>
    if s.inflight < s.bound then { s with inflight := s.inflight + 1 }
    else { s with waiting := s.waiting ++ [opId] }
  | .complete =>
    match s.waiting with
    | [] => { s with inflight := s.inflight - 1 }
    | _ :: restW => { s with waiting := restW }

/-- Modelled from the spec: a whole interleaving of publish calls and
broker acknowledgments run through the pipeline from its idle initial
state with in-flight bound `bound`. -/
def pipeRun (bound : Nat) (evs : List PipeEvent) : PipeState :=
  evs.foldl pipeStep { bound := bound, inflight := 0, waiting := [] }

theorem pipeStep_bound (s : PipeState) (e : PipeEvent)
    (h : s.inflight ≤ s.bound) :
    (pipeStep s e).inflight ≤ (pipeStep s e).bound ∧ (pipeStep s e).bound = s.bound := by
  cases e with
  | request opId =>
    simp only [pipeStep]
    by_cases hlt : s.inflight < s.bound
    · rw [if_pos hlt]
      exact ⟨by dsimp only; omega, rfl⟩
    · rw [if_neg hlt]
      exact ⟨h, rfl⟩
  | complete =>
    simp only [pipeStep]
    rcases hw : s.waiting with _ | ⟨w, restW⟩
    · exact ⟨by dsimp only; omega, rfl⟩
    · exact ⟨h, rfl⟩

theorem pipeFold_bound (evs : List PipeEvent) :
    ∀ (s : PipeState), s.inflight ≤ s.bound →
      (evs.foldl pipeStep s).inflight ≤ (evs.foldl pipeStep s).bound ∧
      (evs.foldl pipeStep s).bound = s.bound := by
  induction evs with
  | nil => intro s h; exact ⟨h, rfl⟩
  | cons e rest ih =>
    intro s h
    have h1 := pipeStep_bound s e h
    have h2 := ih (pipeStep s e) h1.1
    exact ⟨h2.1, h2.2.trans h1.2⟩

/-- C7: under any interleaving of `N` publish calls and broker
acknowledgments, the pipeline with in-flight bound `K` never has more than
`K` publishes simultaneously outstanding at the transport; and a caller
arriving while the bound is saturated is suspended onto the wait queue
(kept in full, with the pipeline otherwise unchanged) rather than given an
error. -/
theorem publish_backpressure (K : Nat) (evs : List PipeEvent) (s : PipeState)
    (opId : Nat) (hsat : s.bound ≤ s.inflight) :
    (pipeRun K evs).inflight ≤ K ∧
    pipeStep s (.request opId) = { s with waiting := s.waiting ++ [opId] } := by
  constructor
  · have h := pipeFold_bound evs { bound := K, inflight := 0, waiting := [] }
      (by simp)
    exact le_of_le_of_eq h.1 h.2
  · simp only [pipeStep]
    rw [if_neg (by omega)]

/-- C7 witness: a concrete saturated pipeline (bound 2, 2 in flight)
suspends a third caller, and a run of 5 requests against bound 2 never
exceeds 2 in flight. -/
theorem publish_backpressure_witness :
    (pipeRun 2 [.request 1, .request 2, .request 3, .complete, .request 4,
        .request 5]).inflight ≤ 2 ∧
    pipeStep ⟨2, 2, [9]⟩ (.request 7) = ⟨2, 2, [9, 7]⟩ := by
  have h := publish_backpressure 2
    [.request 1, .request 2, .request 3, .complete, .request 4, .request 5]
    ⟨2, 2, [9]⟩ 7 (by decide)
  exact ⟨h.1, by simpa using h.2⟩

end EnSync
